import Mathlib

/-!
Verification of the client-side text-analysis / persona-generation engine of the
AI_persona repository (the `PersonaWriter` class).  Strings are modelled as
`List Char`; JavaScript floating-point values that can be `NaN` or infinite are
modelled by the inductive type `JSNum` over exact rationals.  Each definition
below is a direct shallow embedding of the correspondingly named method of the
source file; fields and methods not needed by the verified properties
(punctuation style, emoji usage, avatars, persistence and DOM code) are omitted.
-/

namespace PersonaWriter

/-- Strings modelled as lists of characters. -/
abbrev Str := List Char

/-- Conversion of a Lean string literal to the `Str` model. -/
def strL (s : String) : Str := s.toList

/-- Model of the JavaScript `\s` class (ASCII whitespace). -/
def wsChar (c : Char) : Bool := c.isWhitespace

/-- Model of the JavaScript `\w` class: letters, digits and underscore. -/
def wordChar (c : Char) : Bool := c.isAlpha || c.isDigit || c == '_'

/-- The sentence-terminator class `[.!?]` used by `splitSentences`. -/
def sentDelim (c : Char) : Bool := c == '.' || c == '!' || c == '?'

/-- Split a character list at every character satisfying `p` (the delimiter
class), keeping the possibly empty pieces between delimiters.  The JavaScript
`split` on a character class collapses runs of delimiters, but every piece this
model produces in addition is empty and all callers filter empty pieces away,
so the surviving pieces coincide with the JavaScript result. -/
def splitP (p : Char → Bool) : Str → List Str
  | [] => [[]]
  | c :: cs =>
    if p c then [] :: splitP p cs
    else
      match splitP p cs with
      | [] => [[c]]
      | t :: ts => (c :: t) :: ts

/-- Model of `String.prototype.trim`: drop leading and trailing whitespace. -/
def trimL (s : Str) : Str := ((s.dropWhile wsChar).reverse.dropWhile wsChar).reverse

/-- Model of `tokenize(text)`: lower-case, replace every non-word non-space character by
a space, split on whitespace runs and drop empty entries.  The surviving pieces
are exactly the maximal runs of word characters of the lower-cased text, which
is what splitting at every non-word character and dropping empties produces. -/
def tokenize (text : Str) : List Str :=
  (splitP (fun c => !wordChar c) (text.map Char.toLower)).filter (fun w => w.length > 0)

/-- Model of `splitSentences(text)`: split on `[.!?]+` and keep the pieces whose trimmed
form is nonempty (the pieces themselves are kept untrimmed). -/
def splitSentences (text : Str) : List Str :=
  (splitP sentDelim text).filter (fun s => (trimL s).length > 0)

/-- Model of `hay.includes(pat)` for strings: substring containment. -/
def hasSubstr (pat : Str) : Str → Bool
  | [] => pat.isEmpty
  | c :: rest => pat.isPrefixOf (c :: rest) || hasSubstr pat rest

/-- JavaScript number results that matter to the analysis engine: a finite
value (kept exact as a rational), the two infinities, or `NaN`. -/
inductive JSNum where
  | nan : JSNum
  | posInf : JSNum
  | negInf : JSNum
  | fin : ℚ → JSNum
deriving DecidableEq, Repr

/-- IEEE division of two finite values: `x / 0` is `±∞` for nonzero `x` and
`NaN` for `0 / 0`. -/
def jsDiv (a b : ℚ) : JSNum :=
  if b = 0 then (if 0 < a then JSNum.posInf else if a < 0 then JSNum.negInf else JSNum.nan)
  else JSNum.fin (a / b)

/-- Model of `Math.min(a, x)` with a finite first argument. -/
def jsMin (a : ℚ) : JSNum → JSNum
  | JSNum.nan => JSNum.nan
  | JSNum.posInf => JSNum.fin a
  | JSNum.negInf => JSNum.negInf
  | JSNum.fin q => JSNum.fin (min a q)

/-- Model of `Math.max(a, x)` with a finite first argument. -/
def jsMax (a : ℚ) : JSNum → JSNum
  | JSNum.nan => JSNum.nan
  | JSNum.posInf => JSNum.posInf
  | JSNum.negInf => JSNum.fin a
  | JSNum.fin q => JSNum.fin (max a q)

/-- The JavaScript comparison `x > c`; false whenever `x` is `NaN`. -/
def jsGt : JSNum → ℚ → Bool
  | JSNum.nan, _ => false
  | JSNum.posInf, _ => true
  | JSNum.negInf, _ => false
  | JSNum.fin q, c => decide (c < q)

/-- The JavaScript comparison `x < c`; false whenever `x` is `NaN`. -/
def jsLt : JSNum → ℚ → Bool
  | JSNum.nan, _ => false
  | JSNum.posInf, _ => false
  | JSNum.negInf, _ => true
  | JSNum.fin q, c => decide (q < c)

/-- A `JSNum` that is finite and lies in the closed unit interval. -/
def jsInUnit : JSNum → Prop
  | JSNum.nan => False
  | JSNum.posInf => False
  | JSNum.negInf => False
  | JSNum.fin q => 0 ≤ q ∧ q ≤ 1

instance : DecidablePred jsInUnit := fun x =>
  match x with
  | JSNum.nan => isFalse fun h => h
  | JSNum.posInf => isFalse fun h => h
  | JSNum.negInf => isFalse fun h => h
  | JSNum.fin q => inferInstanceAs (Decidable (0 ≤ q ∧ q ≤ 1))

/-! ### Sentiment analysis (`analyzeSentiment`) -/

/-- Result of the lexicon-based sentiment analysis. -/
structure Sentiment where
  polarity : String
  strength : ℚ
deriving DecidableEq, Repr

/-- The positive-word lexicon of `analyzeSentiment`. -/
def positiveWords : List Str :=
  (["love", "enjoy", "amazing", "awesome", "great", "excellent", "wonderful",
    "fantastic", "brilliant", "incredible", "perfect", "beautiful", "happy",
    "excited", "passionate", "thrilled", "delighted", "pleased", "satisfied",
    "good", "nice", "cool", "fun", "interesting", "fascinating", "inspiring"] :
    List String).map strL

/-- The negative-word lexicon of `analyzeSentiment`. -/
def negativeWords : List Str :=
  (["hate", "terrible", "awful", "horrible", "bad", "worst", "disappointing",
    "frustrated", "annoyed", "upset", "angry", "sad", "depressed", "boring",
    "stupid", "difficult", "problem", "issue", "concern", "worry", "fear"] :
    List String).map strL

/-- Model of `analyzeSentiment(tokens)`: count lexicon hits; with no hits return the
neutral default of strength `0.3`, otherwise strength `min(total/len*10, 1)`
and polarity given by the sign of the net score. -/
def analyzeSentiment (tokens : List Str) : Sentiment :=
  let positiveScore := tokens.countP (fun t => positiveWords.contains t)
  let negativeScore := tokens.countP (fun t => negativeWords.contains t)
  let netScore : ℤ := (positiveScore : ℤ) - (negativeScore : ℤ)
  let totalEmotional := positiveScore + negativeScore
  if totalEmotional = 0 then { polarity := "neutral", strength := 3/10 }
  else
    let strength : ℚ := min ((totalEmotional : ℚ) / (tokens.length : ℚ) * 10) 1
    if 0 < netScore then { polarity := "positive", strength := strength }
    else if netScore < 0 then { polarity := "negative", strength := strength }
    else { polarity := "neutral", strength := strength }

/-! ### Formality analysis (`analyzeFormality`) -/

/-- The formal-indicator lexicon. -/
def formalIndicators : List Str :=
  (["furthermore", "moreover", "consequently", "therefore", "however",
    "nevertheless", "approximately", "significant", "substantial", "comprehensive",
    "expertise", "professional", "experience", "responsibility", "objective"] :
    List String).map strL

/-- The informal-indicator lexicon. -/
def informalIndicators : List Str :=
  (["yeah", "cool", "awesome", "gonna", "wanna", "kinda", "sorta",
    "hey", "yo", "dude", "buddy", "stuff", "things", "pretty",
    "really", "super", "totally", "definitely", "absolutely"] :
    List String).map strL

/-- The apostrophe character. -/
def apos : Char := Char.ofNat 39

/-- A `\b` boundary after a word character: end of input or a non-word
character next. -/
def boundaryAfterWB : Str → Bool
  | [] => true
  | c :: _ => !wordChar c

/-- Match one alternative of the contraction pattern `(ll|re|ve|d|t|s)\b`
against the characters following an apostrophe, returning the rest of the
input after the match. -/
def contrMatchRest : Str → Option Str
  | 'l' :: 'l' :: r => if boundaryAfterWB r then some r else none
  | 'r' :: 'e' :: r => if boundaryAfterWB r then some r else none
  | 'v' :: 'e' :: r => if boundaryAfterWB r then some r else none
  | 'd' :: r => if boundaryAfterWB r then some r else none
  | 't' :: r => if boundaryAfterWB r then some r else none
  | 's' :: r => if boundaryAfterWB r then some r else none
  | _ => none

/-- Fuelled scan counting the matches of `/'(ll|re|ve|d|t|s)\b/g`; fuel is the
input length, which suffices since every step consumes at least one
character. -/
def countContrF : ℕ → Str → ℕ
  | 0, _ => 0
  | _ + 1, [] => 0
  | n + 1, c :: cs =>
    if c = apos then
      match contrMatchRest cs with
      | some r => 1 + countContrF n r
      | none => countContrF n cs
    else countContrF n cs

/-- Model of `(text.match(/'(ll|re|ve|d|t|s)\b/g) || []).length`. -/
def countContractions (text : Str) : ℕ := countContrF text.length text

/-- Model of `analyzeFormality(text, tokens)`: lexicon scores plus a sentence-length
bonus and a contraction-ratio penalty; `0.5` when both scores are zero. -/
def analyzeFormality (text : Str) (tokens : List Str) : ℚ :=
  let contractions := countContractions text
  let formalScore := tokens.countP (fun t => formalIndicators.contains t)
  let informalScore := tokens.countP (fun t => informalIndicators.contains t)
  let avgSentenceLength := jsDiv (tokens.length : ℚ) ((splitSentences text).length : ℚ)
  let contractionsRatio := jsDiv (contractions : ℚ) (tokens.length : ℚ)
  let formalScore' := formalScore + (if jsGt avgSentenceLength 20 then 2 else 0)
  let informalScore' := informalScore + (if jsGt contractionsRatio (1/10) then 3 else 0)
  let total := formalScore' + informalScore'
  if total = 0 then 1/2 else (formalScore' : ℚ) / (total : ℚ)

/-! ### Energy analysis (`analyzeEnergy`) -/

/-- The high-energy lexicon. -/
def highEnergyWords : List Str :=
  (["excited", "amazing", "awesome", "incredible", "fantastic", "brilliant",
    "love", "passion", "adventure", "explore", "discover", "create",
    "energy", "dynamic", "vibrant", "enthusiastic", "motivated"] :
    List String).map strL

/-- The low-energy lexicon. -/
def lowEnergyWords : List Str :=
  (["calm", "quiet", "peaceful", "relaxed", "gentle", "soft", "subtle",
    "comfortable", "steady", "stable", "consistent", "methodical"] :
    List String).map strL

/-- Model of `(text.match(/!/g) || []).length`. -/
def countExclaim (text : Str) : ℕ := text.countP (fun c => c == '!')

/-- Model of `(text.match(/\b[A-Z]{2,}\b/g) || []).length`: the maximal word-character
runs that consist solely of at least two uppercase letters. -/
def countCapWords (text : Str) : ℕ :=
  ((splitP (fun c => !wordChar c) text).filter
    (fun w => decide (2 ≤ w.length) && w.all Char.isUpper)).length

/-- Model of `analyzeEnergy(text, tokens)`: lexicon hits weighted `+2`/`-1`, plus `2`
per exclamation mark and `1` per all-caps word; then normalized by
`Math.max(0, Math.min(1, (score + len*0.3) / (len*0.8)))`. -/
def analyzeEnergy (text : Str) (tokens : List Str) : JSNum :=
  let base : ℤ := tokens.foldl (fun acc t =>
      let acc1 := if highEnergyWords.contains t then acc + 2 else acc
      if lowEnergyWords.contains t then acc1 - 1 else acc1) 0
  let energyScore : ℤ := base + (countExclaim text : ℤ) * 2 + (countCapWords text : ℤ)
  jsMax 0 (jsMin 1 (jsDiv ((energyScore : ℚ) + (tokens.length : ℚ) * (3/10))
    ((tokens.length : ℚ) * (8/10))))

/-! ### Topic extraction (`extractTopics`) -/

/-- The six topic labels, in declaration order of the keyword table. -/
def topicNames : List String :=
  ["technology", "creativity", "business", "lifestyle", "entertainment", "education"]

/-- The keyword-substring lists of the topic table. -/
def topicKeywords (t : String) : List Str :=
  if t = "technology" then
    (["tech", "computer", "software", "programming", "code", "digital", "ai", "data"] :
      List String).map strL
  else if t = "creativity" then
    (["creative", "art", "design", "music", "writing", "imagination", "artistic"] :
      List String).map strL
  else if t = "business" then
    (["business", "management", "leadership", "strategy", "marketing", "finance"] :
      List String).map strL
  else if t = "lifestyle" then
    (["travel", "food", "fitness", "health", "family", "friends", "hobbies"] :
      List String).map strL
  else if t = "entertainment" then
    (["movies", "games", "books", "tv", "sports", "music", "shows"] :
      List String).map strL
  else if t = "education" then
    (["learning", "education", "teaching", "study", "knowledge", "research"] :
      List String).map strL
  else []

/-- The score of one topic: for each keyword, add the number of tokens that
contain it as a substring (a token containing several keywords of the topic is
counted once per keyword). -/
def topicScore (tokens : List Str) (t : String) : ℕ :=
  (topicKeywords t).foldl
    (fun acc kw => acc + (tokens.filter (fun tok => hasSubstr kw tok)).length) 0

/-- Insert into a list sorted descending by `key`, after every strictly larger
element and before equal ones, modelling one step of a stable descending
sort. -/
def insertDescBy {α : Type} (key : α → ℕ) (x : α) : List α → List α
  | [] => [x]
  | y :: ys => if key x < key y then y :: insertDescBy key x ys else x :: y :: ys

/-- Stable descending insertion sort, the model of the (stable) JavaScript
`sort((a, b) => b[1] - a[1])`. -/
def sortDescBy {α : Type} (key : α → ℕ) : List α → List α
  | [] => []
  | x :: xs => insertDescBy key x (sortDescBy key xs)

/-- Model of `extractTopics(tokens)`: score all six topics, sort descending (stably),
take the first three, drop zero scores, and return the labels. -/
def extractTopics (tokens : List Str) : List String :=
  let entries := topicNames.map (fun t => (t, topicScore tokens t))
  (((sortDescBy (fun e => e.2) entries).take 3).filter (fun e => 0 < e.2)).map
    (fun e => e.1)

/-! ### Vocabulary analysis (`analyzeVocabulary`) -/

/-- Distinct elements keeping the first occurrence of each, modelling the
iteration order of a JavaScript `Set` / object built by insertion. -/
def firstDistinctAux (seen : List Str) : List Str → List Str
  | [] => []
  | x :: xs =>
    if seen.contains x then firstDistinctAux seen xs
    else x :: firstDistinctAux (x :: seen) xs

/-- Distinct elements of a list, first occurrences first. -/
def firstDistinct (l : List Str) : List Str := firstDistinctAux [] l

/-- Vocabulary features: type-token richness and the most frequent words. -/
structure Vocabulary where
  richness : JSNum
  frequentWords : List Str
deriving DecidableEq, Repr

/-- The frequent-word list: words of length over three occurring more than
once, sorted by frequency descending (stably), first eight. -/
def frequentWordsOf (tokens : List Str) : List Str :=
  let entries := (firstDistinct tokens).map (fun w => (w, tokens.count w))
  ((sortDescBy (fun e => e.2)
      (entries.filter (fun e => decide (1 < e.2) && decide (3 < e.1.length)))).take 8).map
    (fun e => e.1)

/-- Model of `analyzeVocabulary(tokens)`. -/
def analyzeVocabulary (tokens : List Str) : Vocabulary :=
  { richness := jsDiv ((firstDistinct tokens).length : ℚ) (tokens.length : ℚ)
    frequentWords := frequentWordsOf tokens }

/-! ### Question/exclamation ratios -/

/-- Model of `analyzeQuestions(sentences)`: fraction of sentences containing a question
mark. -/
def analyzeQuestions (sentences : List Str) : JSNum :=
  jsDiv ((sentences.filter (fun s => s.contains '?')).length : ℚ) ((sentences.length : ℚ))

/-- Model of `analyzeExclamations(sentences)`: fraction of sentences containing an
exclamation mark. -/
def analyzeExclamations (sentences : List Str) : JSNum :=
  jsDiv ((sentences.filter (fun s => s.contains '!')).length : ℚ) ((sentences.length : ℚ))

/-! ### The feature vector (`analyzeText`) -/

/-- The feature vector produced by `analyzeText` (the fields used by the
verified properties; punctuation style, emoji usage and the original text are
omitted). -/
structure Analysis where
  wordCount : ℕ
  sentenceCount : ℕ
  avgWordsPerSentence : JSNum
  sentiment : Sentiment
  formality : ℚ
  energy : JSNum
  topics : List String
  vocabulary : Vocabulary
  questionRatio : JSNum
  exclamationRatio : JSNum
deriving DecidableEq, Repr

/-- Model of `analyzeText(text)`. -/
def analyzeText (text : Str) : Analysis :=
  let tokens := tokenize text
  let sentences := splitSentences text
  { wordCount := tokens.length
    sentenceCount := sentences.length
    avgWordsPerSentence := jsDiv (tokens.length : ℚ) (sentences.length : ℚ)
    sentiment := analyzeSentiment tokens
    formality := analyzeFormality text tokens
    energy := analyzeEnergy text tokens
    topics := extractTopics tokens
    vocabulary := analyzeVocabulary tokens
    questionRatio := analyzeQuestions sentences
    exclamationRatio := analyzeExclamations sentences }

/-! ### Trait mapping (`mapTraits`) -/

/-- Model of `mapTraits(analysis)`: a formality trait and an energy trait are always
pushed first, followed by the conditional traits, and the list is truncated to
its first five entries. -/
def mapTraits (a : Analysis) : List String :=
  ((if a.formality > 7/10 then ["Professional"]
    else if a.formality < 3/10 then ["Casual"] else ["Balanced"]) ++
   (if jsGt a.energy (7/10) then ["Energetic"]
    else if jsLt a.energy (3/10) then ["Calm"] else ["Moderate"]) ++
   (if a.sentiment.strength > 1/2 then
      [if a.sentiment.polarity = "positive" then ("Optimistic") else ("Thoughtful")]
    else []) ++
   (if jsGt a.questionRatio (3/10) then ["Curious"] else []) ++
   (if jsGt a.exclamationRatio (3/10) then ["Expressive"] else []) ++
   (if a.topics.contains ("creativity") then ["Creative"] else []) ++
   (if a.topics.contains ("technology") then ["Tech-Savvy"] else []) ++
   (if a.topics.contains ("business") then ["Strategic"] else []) ++
   (if jsGt a.vocabulary.richness (7/10) then ["Articulate"] else [])).take 5

/-! ### Tagline generation (`generateTagline`) -/

/-- The tagline lookup table of `generateTagline`. -/
def taglineTable (key : String) : Option String :=
  if key = "creative_high_energy" then
    some ("Turning imagination into reality with boundless creativity!")
  else if key = "creative_low_energy" then
    some ("Crafting thoughtful art with serene inspiration.")
  else if key = "tech_high_energy" then
    some ("Coding the future with unstoppable innovation!")
  else if key = "tech_low_energy" then
    some ("Building tomorrow's solutions with methodical precision.")
  else if key = "professional_high_energy" then
    some ("Leading dynamic teams to extraordinary results!")
  else if key = "professional_low_energy" then
    some ("Delivering excellence through strategic thinking.")
  else if key = "friendly_high_energy" then
    some ("Spreading joy and positive energy everywhere!")
  else if key = "friendly_low_energy" then
    some ("Creating meaningful connections with gentle wisdom.")
  else none

/-- The `default` entry of the tagline table. -/
def defaultTagline : String := "Bringing unique perspective to every conversation."

/-- Model of `generateTagline(analysis)`: look up `{primaryTopic}_{high_energy|low_energy}`
in the table, falling back to the default entry. -/
def generateTagline (a : Analysis) : String :=
  let primaryTopic :=
    match a.topics with
    | [] => "default"
    | t :: _ => t
  let energyLevel := if jsGt a.energy (6/10) then ("high_energy") else ("low_energy")
  let key := primaryTopic ++ "_" ++ energyLevel
  (taglineTable key).getD defaultTagline

/-! ### Persona name generation (`generatePersonaName`) -/

/-- Model of `randomChoice(array)` over strings: `array[Math.floor(Math.random() *
array.length)]`, with the random draw modelled by an arbitrary natural number
reduced modulo the length. -/
def randomChoiceS (k : ℕ) (l : List String) : String := l.getD (k % l.length) ("")

/-- Model of `randomChoice(array)` over modelled strings. -/
def randomChoiceL (k : ℕ) (l : List Str) : Str := l.getD (k % l.length) []

/-- The high-energy name prefixes. -/
def pfxHighEnergy : List String := ["Spark", "Blaze", "Dash", "Flash", "Volt", "Zap"]

/-- The low-energy name prefixes. -/
def pfxLowEnergy : List String := ["Zen", "Calm", "Sage", "Peace", "Gentle", "Quiet"]

/-- The creative name prefixes. -/
def pfxCreative : List String := ["Dream", "Vision", "Art", "Muse", "Pixel", "Canvas"]

/-- The professional name prefixes. -/
def pfxProfessional : List String := ["Pro", "Elite", "Prime", "Expert", "Alpha", "Chief"]

/-- The friendly name prefixes (default bucket). -/
def pfxFriendly : List String := ["Buddy", "Sunny", "Happy", "Joy", "Bright", "Cheer"]

/-- The per-topic name-suffix table (`education` has no entry). -/
def sfxTableFor (t : String) : Option (List String) :=
  if t = "technology" then some (["Tech", "Bot", "Byte", "Code", "Data", "Sync"])
  else if t = "creativity" then some (["Art", "Craft", "Draw", "Write", "Make", "Create"])
  else if t = "business" then some (["Pro", "Lead", "Boss", "Chief", "Head", "Star"])
  else if t = "lifestyle" then some (["Life", "Style", "Vibe", "Flow", "Wave", "Soul"])
  else if t = "entertainment" then some (["Fun", "Play", "Game", "Show", "Joy", "Laugh"])
  else none

/-- Model of `generatePersonaName(analysis)`, with the two random draws modelled by the
indices `i` (prefix) and `j` (suffix). -/
def generatePersonaName (a : Analysis) (i j : ℕ) : String :=
  let pfx :=
    if jsGt a.energy (7/10) then randomChoiceS i pfxHighEnergy
    else if jsLt a.energy (3/10) then randomChoiceS i pfxLowEnergy
    else if a.topics.contains ("creativity") then randomChoiceS i pfxCreative
    else if a.formality > 7/10 then randomChoiceS i pfxProfessional
    else randomChoiceS i pfxFriendly
  let sfx :=
    match a.topics with
    | [] => "Mind"
    | t :: _ =>
      match sfxTableFor t with
      | some l => randomChoiceS j l
      | none => "Mind"
  pfx ++ sfx

/-! ### The persona profile -/

/-- Model of `communicationStyle` of a persona profile. -/
structure CommStyle where
  formality : ℚ
  energy : JSNum
  sentiment : String
  topics : List String
deriving DecidableEq, Repr

/-- The persona profile fields used by the response generator (id, name,
avatar, tagline, creation date and the embedded analysis are omitted). -/
structure Persona where
  traits : List String
  signaturePhrases : List Str
  favoriteWords : List Str
  emojiStyle : Str
  communicationStyle : CommStyle
deriving DecidableEq, Repr

/-! ### Style application (`applyPersonaStyle`, `makeFormal`, `makeInformal`) -/

/-- Case-insensitive character comparison (the `/i` regex flag). -/
def lowerEq (a b : Char) : Bool := a.toLower == b.toLower

/-- Case-insensitive prefix test of a pattern against the input. -/
def matchCI : Str → Str → Bool
  | [], _ => true
  | _ :: _, [] => false
  | p :: ps, c :: cs => lowerEq p c && matchCI ps cs

/-- A `\b` boundary before a word character: start of input or a non-word
character just before. -/
def wordBoundaryBefore : Option Char → Bool
  | none => true
  | some c => !wordChar c

/-- Fuelled scan of `text.replace(/\bpat\b/gi, rep)` for a pattern that starts
and ends with a word character: at each position, if the previous character
ends a boundary, the pattern matches case-insensitively and a boundary
follows, emit the replacement and continue after the match, else keep the
character.  Fuel is the input length, which suffices since every step consumes
at least one character for the nonempty patterns used. -/
def replWBF (pat rep : Str) : ℕ → Option Char → Str → Str
  | 0, _, s => s
  | _ + 1, _, [] => []
  | n + 1, prev, c :: cs =>
    if wordBoundaryBefore prev && matchCI pat (c :: cs) &&
        boundaryAfterWB ((c :: cs).drop pat.length) then
      rep ++ replWBF pat rep n ((c :: cs).take pat.length).getLast? ((c :: cs).drop pat.length)
    else c :: replWBF pat rep n (some c) cs

/-- Global case-insensitive word-boundary replacement. -/
def replaceAllWB (pat rep s : Str) : Str := replWBF pat rep s.length none s

/-- Model of `makeFormal(response)`: expand the five contractions, in source order. -/
def makeFormal (response : Str) : Str :=
  replaceAllWB (strL ("you're")) (strL ("you are"))
    (replaceAllWB (strL ("I'm")) (strL ("I am"))
      (replaceAllWB (strL ("won't")) (strL ("will not"))
        (replaceAllWB (strL ("can't")) (strL ("cannot"))
          (replaceAllWB (strL ("that's")) (strL ("that is")) response))))

/-- Model of `makeInformal(response)`: the inverse contraction rewrites, in source
order. -/
def makeInformal (response : Str) : Str :=
  replaceAllWB (strL ("you are")) (strL ("you're"))
    (replaceAllWB (strL ("I am")) (strL ("I'm"))
      (replaceAllWB (strL ("will not")) (strL ("won't"))
        (replaceAllWB (strL ("cannot")) (strL ("can't"))
          (replaceAllWB (strL ("that is")) (strL ("that's")) response))))

/-- Model of `applyPersonaStyle(response, persona)`: formality rewrite, then an
exclamation mark is appended for high-energy personas when missing, then with
probability 0.3 a signature phrase and with probability 0.4 an emoji are
appended.  The two probabilistic branches are modelled by the booleans `r1`,
`r2` and the two random draws by `k1`, `k2`. -/
def applyPersonaStyle (response : Str) (p : Persona) (r1 r2 : Bool) (k1 k2 : ℕ) : Str :=
  let s1 :=
    if p.communicationStyle.formality > 7/10 then makeFormal response
    else if p.communicationStyle.formality < 3/10 then makeInformal response
    else response
  let s2 :=
    if jsGt p.communicationStyle.energy (7/10) then
      (if s1.contains '!' then s1 else s1 ++ ['!'])
    else s1
  let s3 :=
    if r1 ∧ 0 < p.signaturePhrases.length then
      s2 ++ ' ' :: randomChoiceL k1 p.signaturePhrases
    else s2
  if r2 ∧ p.emojiStyle ≠ [] then
    s3 ++ ' ' :: randomChoiceL k2 (splitP (fun c => c == ' ') p.emojiStyle)
  else s3

/-! ### Response generation -/

/-- The clarifying-question follow-up templates. -/
def clarifyingFollowUps : List Str :=
  (["What's your take on that?",
    "Have you experienced something similar?",
    "I'd love to hear more about your thoughts.",
    "What do you think about it?",
    "How do you see it from your perspective?",
    "What's been your experience with that?"] : List String).map strL

/-- The enthusiasm follow-up line. -/
def enthusiasmLine : Str := strL ("I find that really exciting to think about!")

/-- The generic reflective follow-up templates. -/
def genericFollowUps : List Str :=
  (["That's something worth considering.",
    "It's always interesting to explore different ideas.",
    "There's so much to learn from different perspectives."] : List String).map strL

/-- Model of `generateFollowUp(userTokens, persona)`. -/
def generateFollowUp (userTokens : List Str) (p : Persona) (k : ℕ) : Str :=
  if p.traits.contains ("Curious") then randomChoiceL k clarifyingFollowUps
  else if p.traits.contains ("Expressive") || p.traits.contains ("Energetic") then
    enthusiasmLine
  else randomChoiceL k genericFollowUps

/-- The reaction templates, bucketed by sentiment polarity. -/
def reactionTemplates (polarity : String) : List Str :=
  if polarity = "positive" then
    (["I love that!", "That sounds amazing!", "Absolutely!", "That's fantastic!",
      "I'm so glad you mentioned that!"] : List String).map strL
  else if polarity = "negative" then
    (["I understand what you mean.", "That can be challenging.", "I hear you on that.",
      "That's tough to deal with.", "I get where you're coming from."] : List String).map strL
  else
    (["Interesting!", "That's a good point.", "I see what you're saying.",
      "That makes sense.", "Tell me more about that."] : List String).map strL

/-- Model of `generateReactiveResponse(userMessage, userTokens, sentiment, persona)`. -/
def generateReactiveResponse (userMessage : Str) (userTokens : List Str)
    (sentiment : Sentiment) (p : Persona) (k1 k2 : ℕ) : Str :=
  let reaction := randomChoiceL k1 (reactionTemplates sentiment.polarity)
  let followUp := generateFollowUp userTokens p k2
  reaction ++ ' ' :: followUp

/-- The question words recognized by `generateAnswerResponse`, in declaration
order. -/
def questionWords : List Str :=
  (["what", "how", "why", "when", "where", "who", "which"] : List String).map strL

/-- The `general` opener templates. -/
def generalAnswerTemplates : List Str :=
  (["That's an interesting question!", "Let me think about that...",
    "You know what?", "Here's what I think:"] : List String).map strL

/-- The opener-template table (`when`/`where`/`who`/`which` have no entry). -/
def answerTemplatesFor (qt : Str) : Option (List Str) :=
  if qt = strL ("what") then
    some ((["That's a great question! From my perspective,",
            "I think what's really important here is",
            "You know, I've always believed that",
            "That's something I've thought about, and"] : List String).map strL)
  else if qt = strL ("how") then
    some ((["Here's how I see it:", "My approach would be to",
            "I've found that the best way is", "From my experience, you can"] :
            List String).map strL)
  else if qt = strL ("why") then
    some ((["That's because", "The reason I think that is", "Well, in my opinion",
            "I believe it's because"] : List String).map strL)
  else if qt = strL ("general") then some generalAnswerTemplates
  else none

/-- The per-topic elaboration table of `generateElaboration`
(`entertainment`/`education` have no entry). -/
def detailTableFor (t : String) : Option (List Str) :=
  if t = "technology" then
    some ((["Technology is constantly evolving and shaping our future.",
            "The digital world offers incredible possibilities.",
            "Innovation drives progress in amazing ways.",
            "Tech solutions can solve so many problems."] : List String).map strL)
  else if t = "creativity" then
    some ((["Creativity is the spark that ignites amazing ideas.",
            "Art and imagination make life so much richer.",
            "There's beauty in every creative expression.",
            "Thinking outside the box opens new possibilities."] : List String).map strL)
  else if t = "business" then
    some ((["Strategic thinking is key to success.",
            "Leadership requires both vision and execution.",
            "Effective planning makes all the difference.",
            "Professional growth comes from continuous learning."] : List String).map strL)
  else if t = "lifestyle" then
    some ((["Life is all about finding balance and joy.",
            "Personal experiences shape who we become.",
            "Every day brings new opportunities.",
            "It's important to enjoy the journey."] : List String).map strL)
  else none

/-- The favorite-word / generic fallback of `generateElaboration`. -/
def detailFallback (p : Persona) (kW : ℕ) : Str :=
  if 0 < p.favoriteWords.length then
    strL ("I think ") ++ randomChoiceL kW p.favoriteWords ++
      strL (" is really important in this context.")
  else strL ("It's all about perspective and finding what works best!")

/-- Model of `generateElaboration(userTokens, persona)`: find the first persona topic
contained in some token, use its elaboration table when it has one, else fall
back to the favorite-word sentence or the generic line. -/
def generateElaboration (userTokens : List Str) (p : Persona) (kE kW : ℕ) : Str :=
  let relevantTopic := p.communicationStyle.topics.find?
    (fun t => userTokens.any (fun tok => hasSubstr (strL t) tok))
  match relevantTopic with
  | some t =>
    match detailTableFor t with
    | some l => randomChoiceL kE l
    | none => detailFallback p kW
  | none => detailFallback p kW

/-- Model of `generateAnswerResponse(userMessage, userTokens, persona)`. -/
def generateAnswerResponse (userMessage : Str) (userTokens : List Str)
    (p : Persona) (kT kE kW : ℕ) : Str :=
  let questionType := (questionWords.find? (fun w => userTokens.contains w)).getD (strL ("general"))
  let template := randomChoiceL kT ((answerTemplatesFor questionType).getD generalAnswerTemplates)
  template ++ ' ' :: generateElaboration userTokens p kE kW

/-- The response text of `generateResponse` before `applyPersonaStyle`:
tokenize the utterance, detect a question by the presence of `?`, and
dispatch to the answer or reactive generator. -/
def generateResponseCore (userMessage : Str) (p : Persona) (kT kE kW k1 k2 : ℕ) : Str :=
  let userTokens := tokenize (userMessage.map Char.toLower)
  let isQuestion := userMessage.contains '?'
  let sentiment := analyzeSentiment userTokens
  if isQuestion then generateAnswerResponse userMessage userTokens p kT kE kW
  else generateReactiveResponse userMessage userTokens sentiment p k1 k2

/-- Model of `generateResponse(userMessage)`: the dispatched template response with the
persona style applied. -/
def generateResponse (userMessage : Str) (p : Persona) (kT kE kW k1 k2 : ℕ)
    (r1 r2 : Bool) (kS kM : ℕ) : Str :=
  applyPersonaStyle (generateResponseCore userMessage p kT kE kW k1 k2) p r1 r2 kS kM

/-! ### Auxiliary definitions used by the verification statements -/

/-- Modelled from the spec's wording of the topic score ("count of tokens
containing any of that topic's keywords"): the number of tokens containing at
least one keyword of the topic, each matching token counted once.  Used to
compare the specified scoring with the implemented `topicScore`. -/
def claimTopicScore (tokens : List Str) (t : String) : ℕ :=
  (tokens.filter (fun tok => (topicKeywords t).any (fun kw => hasSubstr kw tok))).length

/-- A concrete feature vector with a technology topic and maximal energy. -/
def tagWitnessA : Analysis :=
  { wordCount := 3
    sentenceCount := 1
    avgWordsPerSentence := JSNum.fin 3
    sentiment := { polarity := "neutral", strength := 3/10 }
    formality := 1/2
    energy := JSNum.fin 1
    topics := ["technology"]
    vocabulary := { richness := JSNum.fin 1, frequentWords := [] }
    questionRatio := JSNum.fin 0
    exclamationRatio := JSNum.fin 0 }

/-- A concrete persona profile with energy above `0.7`. -/
def energeticPersona : Persona :=
  { traits := []
    signaturePhrases := []
    favoriteWords := []
    emojiStyle := []
    communicationStyle :=
      { formality := 1/2, energy := JSNum.fin 1, sentiment := "neutral", topics := [] } }

/-- A concrete persona profile whose traits contain `Curious`. -/
def curiousPersona : Persona :=
  { traits := ["Curious"]
    signaturePhrases := []
    favoriteWords := []
    emojiStyle := []
    communicationStyle :=
      { formality := 1/2, energy := JSNum.fin (1/2), sentiment := "neutral", topics := [] } }

/-! ### Structural lemmas about splitting, trimming and sorting -/

theorem splitP_ne_nil (p : Char → Bool) (l : Str) : splitP p l ≠ [] := by
  cases l with
  | nil => simp [splitP]
  | cons c cs =>
    simp only [splitP]
    split
    · simp
    · cases h : splitP p cs <;> simp

theorem mem_splitP_not_delim (p : Char → Bool) (l : Str) :
    ∀ s ∈ splitP p l, ∀ c ∈ s, p c = false := by
  induction l with
  | nil => intro s hs c hc; simp [splitP] at hs; subst hs; simp at hc
  | cons a as ih =>
    intro s hs c hc
    simp only [splitP] at hs
    by_cases hpa : p a
    · rw [if_pos hpa] at hs
      rcases List.mem_cons.mp hs with rfl | hs'
      · simp at hc
      · exact ih s hs' c hc
    · rw [if_neg hpa] at hs
      cases h : splitP p as with
      | nil => exact absurd h (splitP_ne_nil p as)
      | cons t ts =>
        rw [h] at hs
        rcases List.mem_cons.mp hs with rfl | hs'
        · rcases List.mem_cons.mp hc with rfl | hc'
          · simpa using hpa
          · exact ih t (h ▸ List.mem_cons_self t ts) c hc'
        · exact ih s (h ▸ List.mem_cons_of_mem t hs') c hc

theorem splitP_flatten (p : Char → Bool) (l : Str) :
    (splitP p l).flatten = l.filter (fun c => !p c) := by
  induction l with
  | nil => simp [splitP]
  | cons a as ih =>
    simp only [splitP]
    by_cases hpa : p a
    · rw [if_pos hpa]
      simp [List.filter_cons, hpa, ih]
    · rw [if_neg hpa]
      cases h : splitP p as with
      | nil => exact absurd h (splitP_ne_nil p as)
      | cons t ts =>
        rw [h] at ih
        simp [List.filter_cons, hpa, ← ih]

theorem all_ws_of_trimL_eq_nil {s : Str} (h : trimL s = []) : ∀ c ∈ s, wsChar c = true := by
  intro c hc
  have h1 : (s.dropWhile wsChar).reverse.dropWhile wsChar = [] := by
    simpa [trimL] using congrArg List.reverse h
  have h2 : ∀ x ∈ s.dropWhile wsChar, wsChar x = true := by
    intro x hx
    exact (List.dropWhile_eq_nil_iff.mp h1) x (List.mem_reverse.mpr hx)
  rcases List.mem_append.mp
      ((List.takeWhile_append_dropWhile (p := wsChar) (l := s)) ▸ hc) with hx | hx
  · exact List.mem_takeWhile_imp hx
  · exact h2 c hx

theorem splitSentences_ne_nil {text : Str} {c : Char} (hc : c ∈ text)
    (hd : sentDelim c = false) (hw : wsChar c = false) : splitSentences text ≠ [] := by
  intro hnil
  have hall := List.filter_eq_nil_iff.mp hnil
  have hcf : c ∈ (splitP sentDelim text).flatten := by
    rw [splitP_flatten]
    exact List.mem_filter.mpr ⟨hc, by simp [hd]⟩
  rcases List.mem_flatten.mp hcf with ⟨s, hs, hcs⟩
  have htrim : trimL s = [] := by simpa using hall s hs
  exact absurd (all_ws_of_trimL_eq_nil htrim c hcs) (by simp [hw])

theorem wordChar_toLower_class (c : Char) (h : wordChar c.toLower = true) :
    sentDelim c = false ∧ wsChar c = false := by
  constructor
  · by_contra hx
    have hx' : sentDelim c = true := by
      cases hb : sentDelim c
      · exact absurd hb hx
      · rfl
    have hc : c = '.' ∨ c = '!' ∨ c = '?' := by
      simpa [sentDelim, Bool.or_eq_true, beq_iff_eq, or_assoc] using hx'
    rcases hc with rfl | rfl | rfl <;> exact absurd h (by decide)
  · by_contra hx
    have hx' : wsChar c = true := by
      cases hb : wsChar c
      · exact absurd hb hx
      · rfl
    have hc : c = ' ' ∨ c = '\t' ∨ c = '\r' ∨ c = '\n' := by
      simpa [wsChar, Char.isWhitespace, Bool.or_eq_true, beq_iff_eq, or_assoc] using hx'
    rcases hc with rfl | rfl | rfl | rfl <;> exact absurd h (by decide)

theorem sentences_ne_nil_of_tokens {text : Str} (h : tokenize text ≠ []) :
    splitSentences text ≠ [] := by
  have hex : ∃ w ∈ splitP (fun c => !wordChar c) (text.map Char.toLower), w.length > 0 := by
    by_contra hno
    push_neg at hno
    exact h (List.filter_eq_nil_iff.mpr (by simpa using hno))
  rcases hex with ⟨w, hw, hwlen⟩
  rcases List.exists_mem_of_length_pos hwlen with ⟨c, hc⟩
  have hword : wordChar c = true := by
    have := mem_splitP_not_delim _ _ w hw c hc
    simpa using this
  have hcmap : c ∈ text.map Char.toLower := by
    have hcf : c ∈ (splitP (fun c => !wordChar c) (text.map Char.toLower)).flatten :=
      List.mem_flatten.mpr ⟨w, hw, hc⟩
    rw [splitP_flatten] at hcf
    exact (List.mem_filter.mp hcf).1
  rcases List.mem_map.mp hcmap with ⟨c0, hc0, rfl⟩
  rcases wordChar_toLower_class c0 hword with ⟨hd, hws⟩
  exact splitSentences_ne_nil hc0 hd hws

theorem insertDescBy_perm {α : Type} (key : α → ℕ) (x : α) (l : List α) :
    (insertDescBy key x l).Perm (x :: l) := by
  induction l with
  | nil => simp [insertDescBy]
  | cons y ys ih =>
    simp only [insertDescBy]
    split
    · exact ((ih.cons y).trans (List.Perm.swap x y ys))
    · exact List.Perm.refl _

theorem sortDescBy_perm {α : Type} (key : α → ℕ) (l : List α) :
    (sortDescBy key l).Perm l := by
  induction l with
  | nil => simp [sortDescBy]
  | cons x xs ih =>
    exact (insertDescBy_perm key x (sortDescBy key xs)).trans (ih.cons x)

theorem pairwise_insertDescBy {α : Type} (key : α → ℕ) (R : α → α → Prop) (x : α)
    (l : List α)
    (hl : l.Pairwise (fun a b => key b < key a ∨ (key a = key b ∧ R a b)))
    (hx : ∀ y ∈ l, R x y) :
    (insertDescBy key x l).Pairwise (fun a b => key b < key a ∨ (key a = key b ∧ R a b)) := by
  induction l with
  | nil => simp [insertDescBy]
  | cons y ys ih =>
    rcases List.pairwise_cons.mp hl with ⟨hy, hys⟩
    simp only [insertDescBy]
    split
    case isTrue hlt =>
      refine List.pairwise_cons.mpr ⟨?_, ih hys (fun z hz => hx z (List.mem_cons_of_mem y hz))⟩
      intro z hz
      rcases List.mem_cons.mp ((insertDescBy_perm key x ys).mem_iff.mp hz) with rfl | hz'
      · exact Or.inl hlt
      · exact hy z hz'
    case isFalse hge =>
      have hyx : key y ≤ key x := Nat.le_of_not_lt hge
      refine List.pairwise_cons.mpr ⟨?_, hl⟩
      intro z hz
      rcases List.mem_cons.mp hz with rfl | hz'
      · rcases Nat.lt_or_ge (key z) (key x) with hlt2 | hge2
        · exact Or.inl hlt2
        · exact Or.inr ⟨Nat.le_antisymm hge2 hyx, hx z (List.mem_cons_self z ys)⟩
      · rcases hy z hz' with hlt2 | ⟨heq, _⟩
        · exact Or.inl (Nat.lt_of_lt_of_le hlt2 hyx)
        · rcases Nat.lt_or_ge (key z) (key x) with hlt3 | hge3
          · exact Or.inl hlt3
          · exact Or.inr ⟨by omega, hx z (List.mem_cons_of_mem y hz')⟩

theorem pairwise_sortDescBy {α : Type} (key : α → ℕ) (R : α → α → Prop) (l : List α)
    (hl : l.Pairwise R) :
    (sortDescBy key l).Pairwise (fun a b => key b < key a ∨ (key a = key b ∧ R a b)) := by
  induction l with
  | nil => simp [sortDescBy]
  | cons x xs ih =>
    rcases List.pairwise_cons.mp hl with ⟨hx, hxs⟩
    exact pairwise_insertDescBy key R x _ (ih hxs)
      (fun y hy => hx y ((sortDescBy_perm key xs).mem_iff.mp hy))

theorem getD_mod_mem {α : Type} (k : ℕ) (l : List α) (d : α) (h : l ≠ []) :
    l.getD (k % l.length) d ∈ l := by
  have hlen : 0 < l.length := List.length_pos.mpr h
  have hk : k % l.length < l.length := Nat.mod_lt k hlen
  rw [List.getD_eq_getElem l d hk]
  exact List.getElem_mem hk

theorem randomChoiceL_mem (k : ℕ) (l : List Str) (h : l ≠ []) : randomChoiceL k l ∈ l :=
  getD_mod_mem k l [] h

theorem randomChoiceS_mem (k : ℕ) (l : List String) (h : l ≠ []) : randomChoiceS k l ∈ l :=
  getD_mod_mem k l ("") h

theorem sentence_no_delim_char {text : Str} {s : Str} (hs : s ∈ splitSentences text)
    {c : Char} (hc : sentDelim c = true) : s.contains c = false := by
  cases hb : s.contains c
  · rfl
  · exfalso
    have hmem : c ∈ s := List.elem_iff.mp hb
    have := mem_splitP_not_delim sentDelim text s (List.mem_of_mem_filter hs) c hmem
    simp [hc] at this

theorem mem_mapTraits_cases {a : Analysis} {t : String} (h : t ∈ mapTraits a) :
    t ∈ (["Professional", "Casual", "Balanced", "Energetic", "Calm", "Moderate",
          "Optimistic", "Thoughtful", "Creative", "Tech-Savvy", "Strategic",
          "Articulate"] : List String) ∨
    (t = "Curious" ∧ jsGt a.questionRatio (3/10) = true) ∨
    (t = "Expressive" ∧ jsGt a.exclamationRatio (3/10) = true) := by
  simp only [mapTraits] at h
  have h' := List.take_subset 5 _ h
  simp only [List.mem_append] at h'
  rcases h' with ((((((((h1 | h2) | h3) | h4) | h5) | h6) | h7) | h8) | h9)
  · left; split_ifs at h1 <;> simp_all
  · left; split_ifs at h2 <;> simp_all
  · left; split_ifs at h3 with hc1 hc2 <;> simp_all
  · right; left
    split_ifs at h4 with hc
    · simp only [List.mem_singleton] at h4; exact ⟨h4, hc⟩
    · simp at h4
  · right; right
    split_ifs at h5 with hc
    · simp only [List.mem_singleton] at h5; exact ⟨h5, hc⟩
    · simp at h5
  · left; split_ifs at h6 <;> simp_all
  · left; split_ifs at h7 <;> simp_all
  · left; split_ifs at h8 <;> simp_all
  · left; split_ifs at h9 <;> simp_all

theorem sfxTableFor_ne_nil {t : String} {l : List String} (h : sfxTableFor t = some l) :
    l ≠ [] := by
  intro hl
  subst hl
  unfold sfxTableFor at h
  split_ifs at h <;> simp_all

theorem formality_core_bounds (F I : ℕ) :
    0 ≤ (if F + I = 0 then (1/2 : ℚ) else (F : ℚ) / ((F + I : ℕ) : ℚ)) ∧
    (if F + I = 0 then (1/2 : ℚ) else (F : ℚ) / ((F + I : ℕ) : ℚ)) ≤ 1 := by
  split_ifs with h0
  · norm_num
  · have hpos : (0 : ℚ) < ((F + I : ℕ) : ℚ) := by exact_mod_cast Nat.pos_of_ne_zero h0
    exact ⟨by positivity, by rw [div_le_one hpos]; exact_mod_cast Nat.le_add_right F I⟩

theorem analyzeFormality_bounds (text : Str) (tokens : List Str) :
    0 ≤ analyzeFormality text tokens ∧ analyzeFormality text tokens ≤ 1 := by
  simp only [analyzeFormality]
  exact formality_core_bounds _ _

theorem analyzeEnergy_inUnit (text : Str) (tokens : List Str) (h : tokens ≠ []) :
    jsInUnit (analyzeEnergy text tokens) := by
  simp only [analyzeEnergy]
  have hlen : (0 : ℚ) < (tokens.length : ℚ) := by
    exact_mod_cast List.length_pos.mpr h
  have hden : ((tokens.length : ℚ) * (8/10)) ≠ 0 := by
    exact ne_of_gt (by nlinarith)
  rw [jsDiv, if_neg hden]
  simp only [jsMin, jsMax, jsInUnit]
  exact ⟨le_max_left 0 _, max_le (by norm_num) (min_le_left 1 _)⟩

theorem sentiment_strength_bounds (tokens : List Str) :
    0 ≤ (analyzeSentiment tokens).strength ∧ (analyzeSentiment tokens).strength ≤ 1 := by
  have hmin : ∀ x : ℚ, 0 ≤ x → 0 ≤ min x 1 ∧ min x 1 ≤ 1 := fun x hx =>
    ⟨le_min hx (by norm_num), min_le_right x 1⟩
  simp only [analyzeSentiment]
  split_ifs with h0 h1 h2
  · norm_num
  · exact hmin _ (by positivity)
  · exact hmin _ (by positivity)
  · exact hmin _ (by positivity)

theorem firstDistinctAux_length_le (seen : List Str) (l : List Str) :
    (firstDistinctAux seen l).length ≤ l.length := by
  induction l generalizing seen with
  | nil => simp [firstDistinctAux]
  | cons x xs ih =>
    simp only [firstDistinctAux]
    split
    · exact Nat.le_succ_of_le (ih seen)
    · simpa using Nat.succ_le_succ (ih (x :: seen))

theorem jsDiv_counts_inUnit (m n : ℕ) (hmn : m ≤ n) (hn : n ≠ 0) :
    jsInUnit (jsDiv (m : ℚ) (n : ℚ)) := by
  have hn' : ((n : ℚ)) ≠ 0 := Nat.cast_ne_zero.mpr hn
  have hn2 : (0 : ℚ) < (n : ℚ) := by exact_mod_cast Nat.pos_of_ne_zero hn
  rw [jsDiv, if_neg hn']
  refine ⟨by positivity, ?_⟩
  rw [div_le_one hn2]
  exact_mod_cast hmn

/-! ### Claim C1 -/

/-- Claim C1 counterexample: on the input text made of a single question mark
(a nonempty string) the token list and the sentence list are both empty, so
`analyzeEnergy` computes `0/0 = NaN` and the question ratio is likewise `NaN`:
the divisions by a zero token or sentence count are not guarded and the
resulting features are not in the unit interval. -/
theorem c1_counterexample :
    strL ("?") ≠ [] ∧
    ¬ jsInUnit ((analyzeText (strL ("?"))).energy) ∧
    ¬ jsInUnit ((analyzeText (strL ("?"))).questionRatio) ∧
    ¬ jsInUnit ((analyzeText (strL ("?"))).vocabulary.richness) := by
  with_unfolding_all decide

/-- Claim C1 (amended): for every input text whose token sequence is nonempty,
the feature vector returned by `analyzeText` has `formality`, `energy`,
`sentiment.strength`, `vocabulary.richness`, `questionRatio` and
`exclamationRatio` all finite and in the closed interval `[0, 1]`.  (Without
the nonempty-token hypothesis the divisions by zero counts produce `NaN`.) -/
theorem c1_features_in_unit (text : Str) (h : tokenize text ≠ []) :
    0 ≤ (analyzeText text).formality ∧ (analyzeText text).formality ≤ 1 ∧
    jsInUnit (analyzeText text).energy ∧
    0 ≤ (analyzeText text).sentiment.strength ∧
    (analyzeText text).sentiment.strength ≤ 1 ∧
    jsInUnit (analyzeText text).vocabulary.richness ∧
    jsInUnit (analyzeText text).questionRatio ∧
    jsInUnit (analyzeText text).exclamationRatio := by
  have hs : splitSentences text ≠ [] := sentences_ne_nil_of_tokens h
  have hslen : (splitSentences text).length ≠ 0 :=
    fun h0 => hs (List.length_eq_zero.mp h0)
  have htlen : (tokenize text).length ≠ 0 :=
    fun h0 => h (List.length_eq_zero.mp h0)
  simp only [analyzeText]
  refine ⟨(analyzeFormality_bounds text (tokenize text)).1,
          (analyzeFormality_bounds text (tokenize text)).2,
          analyzeEnergy_inUnit text (tokenize text) h,
          (sentiment_strength_bounds (tokenize text)).1,
          (sentiment_strength_bounds (tokenize text)).2,
          ?_, ?_, ?_⟩
  · simp only [analyzeVocabulary]
    exact jsDiv_counts_inUnit _ _ (firstDistinctAux_length_le [] (tokenize text)) htlen
  · simp only [analyzeQuestions]
    exact jsDiv_counts_inUnit _ _ (List.length_filter_le _ _) hslen
  · simp only [analyzeExclamations]
    exact jsDiv_counts_inUnit _ _ (List.length_filter_le _ _) hslen

/-- Claim C1 witness: the amended theorem applied to a concrete text. -/
theorem c1_witness :
    tokenize (strL ("Hello world.")) ≠ [] ∧
    (0 ≤ (analyzeText (strL ("Hello world."))).formality ∧
     (analyzeText (strL ("Hello world."))).formality ≤ 1 ∧
     jsInUnit (analyzeText (strL ("Hello world."))).energy ∧
     0 ≤ (analyzeText (strL ("Hello world."))).sentiment.strength ∧
     (analyzeText (strL ("Hello world."))).sentiment.strength ≤ 1 ∧
     jsInUnit (analyzeText (strL ("Hello world."))).vocabulary.richness ∧
     jsInUnit (analyzeText (strL ("Hello world."))).questionRatio ∧
     jsInUnit (analyzeText (strL ("Hello world."))).exclamationRatio) :=
  ⟨by decide, c1_features_in_unit (strL ("Hello world.")) (by decide)⟩

/-! ### Claim C2 -/

/-- Claim C2: for every input text whose sentence sequence is nonempty,
`analyzeQuestions` and `analyzeExclamations` return exactly `0`, because
`splitSentences` consumes every `?` and `!` as a delimiter, so no returned
sentence contains either character; consequently `mapTraits` never adds the
traits `Curious` or `Expressive` to a persona produced from analysis. -/
theorem c2_ratios_zero (text : Str) (h : splitSentences text ≠ []) :
    analyzeQuestions (splitSentences text) = JSNum.fin 0 ∧
    analyzeExclamations (splitSentences text) = JSNum.fin 0 ∧
    ("Curious" : String) ∉ mapTraits (analyzeText text) ∧
    ("Expressive" : String) ∉ mapTraits (analyzeText text) := by
  have hlen : ((splitSentences text).length : ℚ) ≠ 0 := by
    exact_mod_cast fun h0 => h (List.length_eq_zero.mp h0)
  have hq : (splitSentences text).filter (fun s => s.contains '?') = [] :=
    List.filter_eq_nil_iff.mpr (fun s hs hmem =>
      Bool.noConfusion ((sentence_no_delim_char hs (by decide)).symm.trans hmem))
  have he : (splitSentences text).filter (fun s => s.contains '!') = [] :=
    List.filter_eq_nil_iff.mpr (fun s hs hmem =>
      Bool.noConfusion ((sentence_no_delim_char hs (by decide)).symm.trans hmem))
  have hq0 : analyzeQuestions (splitSentences text) = JSNum.fin 0 := by
    unfold analyzeQuestions
    rw [hq]
    simp [jsDiv, hlen]
  have he0 : analyzeExclamations (splitSentences text) = JSNum.fin 0 := by
    unfold analyzeExclamations
    rw [he]
    simp [jsDiv, hlen]
  have hqa : (analyzeText text).questionRatio = JSNum.fin 0 := by
    simp only [analyzeText]
    exact hq0
  have hea : (analyzeText text).exclamationRatio = JSNum.fin 0 := by
    simp only [analyzeText]
    exact he0
  refine ⟨hq0, he0, ?_, ?_⟩
  · intro hmem
    rcases mem_mapTraits_cases hmem with hfix | ⟨_, hgt⟩ | ⟨heq, _⟩
    · exact absurd hfix (by decide)
    · rw [hqa] at hgt
      exact absurd hgt (by with_unfolding_all decide)
    · exact absurd heq (by decide)
  · intro hmem
    rcases mem_mapTraits_cases hmem with hfix | ⟨heq, _⟩ | ⟨_, hgt⟩
    · exact absurd hfix (by decide)
    · exact absurd heq (by decide)
    · rw [hea] at hgt
      exact absurd hgt (by with_unfolding_all decide)

/-- Claim C2 witness: the theorem applied to a concrete two-sentence text. -/
theorem c2_witness :
    splitSentences (strL ("hi there. bye")) ≠ [] ∧
    analyzeQuestions (splitSentences (strL ("hi there. bye"))) = JSNum.fin 0 ∧
    analyzeExclamations (splitSentences (strL ("hi there. bye"))) = JSNum.fin 0 ∧
    ("Curious" : String) ∉ mapTraits (analyzeText (strL ("hi there. bye"))) ∧
    ("Expressive" : String) ∉ mapTraits (analyzeText (strL ("hi there. bye"))) :=
  ⟨by decide, c2_ratios_zero (strL ("hi there. bye")) (by decide)⟩

/-! ### Claim C3 -/

/-- Claim C3: for every feature vector whose topics come from the closed topic
set, `generateTagline` returns the fixed default tagline, because the lookup
key `{topic or default}_{high_energy|low_energy}` never matches a key of the
tagline table (whose non-default keys begin with `creative_`, `tech_`,
`professional_` and `friendly_`). -/
theorem c3_tagline_default (a : Analysis) (h : ∀ t ∈ a.topics, t ∈ topicNames) :
    generateTagline a = defaultTagline := by
  cases htop : a.topics with
  | nil =>
    simp only [generateTagline, htop]
    cases hjs : jsGt a.energy (6/10) <;> simp [hjs] <;> decide
  | cons t ts =>
    have ht : t ∈ topicNames := h t (htop ▸ List.mem_cons_self t ts)
    simp only [topicNames, List.mem_cons, List.not_mem_nil, or_false] at ht
    rcases ht with rfl | rfl | rfl | rfl | rfl | rfl <;>
      · simp only [generateTagline, htop]
        cases hjs : jsGt a.energy (6/10) <;> simp [hjs] <;> decide

/-- Claim C3 witness: the theorem applied to a concrete feature vector with
primary topic `technology` and high energy. -/
theorem c3_witness :
    (∀ t ∈ tagWitnessA.topics, t ∈ topicNames) ∧
    generateTagline tagWitnessA = defaultTagline :=
  ⟨by decide, c3_tagline_default tagWitnessA (by decide)⟩

/-! ### Claim C6 -/

/-- Claim C6 counterexample: `splitSentences` does not trim the parts it
returns — on input `"a. b"` the second returned sentence is `" b"`, which is
not equal to its trimmed form — and the nonempty whitespace-only text `" "`
has no terminal punctuation yet yields zero sentences. -/
theorem c6_counterexample :
    splitSentences (strL ("a. b")) = [strL ("a"), ' ' :: strL ("b")] ∧
    trimL (' ' :: strL ("b")) ≠ ' ' :: strL ("b") ∧
    strL (" ") ≠ [] ∧ (∀ c ∈ strL (" "), sentDelim c = false) ∧
    splitSentences (strL (" ")) = [] := by
  decide

/-- Claim C6 (amended): `splitSentences` splits the input on runs of `.`, `!`,
`?` and drops the parts that are empty or whitespace-only, returning the kept
parts verbatim (untrimmed); the empty string yields an empty sequence, and
every text containing at least one character that is neither sentence
punctuation nor whitespace yields at least one sentence. -/
theorem c6_splitSentences_spec (text : Str) :
    (text = [] → splitSentences text = []) ∧
    (∀ s ∈ splitSentences text, trimL s ≠ [] ∧ ∀ c ∈ s, sentDelim c = false) ∧
    ((∃ c ∈ text, sentDelim c = false ∧ wsChar c = false) → splitSentences text ≠ []) := by
  refine ⟨?_, ?_, ?_⟩
  · rintro rfl
    decide
  · intro s hs
    constructor
    · have h2 := (List.mem_filter.mp hs).2
      intro hnil
      simp [hnil] at h2
    · intro c hc
      exact mem_splitP_not_delim _ _ s (List.mem_of_mem_filter hs) c hc
  · rintro ⟨c, hc, hd, hw⟩
    exact splitSentences_ne_nil hc hd hw

/-- Claim C6 witness: the amended theorem applied to a concrete text without
terminal punctuation. -/
theorem c6_witness :
    splitSentences ([] : Str) = [] ∧
    (∃ c ∈ strL ("hi"), sentDelim c = false ∧ wsChar c = false) ∧
    splitSentences (strL ("hi")) ≠ [] :=
  ⟨(c6_splitSentences_spec ([] : Str)).1 rfl,
   ⟨'h', by decide, by decide, by decide⟩,
   (c6_splitSentences_spec (strL ("hi"))).2.2 ⟨'h', by decide, by decide, by decide⟩⟩

/-! ### Claim C4 -/

/-- Claim C4: for every token sequence, the sentiment extractor returns
polarity `neutral` with strength exactly `0.3` when no token is in the
positive or negative lexicon; otherwise it returns strength
`min(1, (positiveCount + negativeCount) / tokenCount * 10)` and polarity
`positive` when `positiveCount > negativeCount`, `negative` when
`positiveCount < negativeCount`, and `neutral` when they are equal. -/
theorem c4_sentiment_spec (tokens : List Str) :
    ((∀ t ∈ tokens, t ∉ positiveWords ∧ t ∉ negativeWords) →
      analyzeSentiment tokens = { polarity := "neutral", strength := 3/10 }) ∧
    (0 < tokens.countP (fun t => positiveWords.contains t) +
         tokens.countP (fun t => negativeWords.contains t) →
      (analyzeSentiment tokens).strength =
        min 1 (((tokens.countP (fun t => positiveWords.contains t) +
                 tokens.countP (fun t => negativeWords.contains t) : ℕ) : ℚ) /
               (tokens.length : ℚ) * 10) ∧
      (analyzeSentiment tokens).polarity =
        (if tokens.countP (fun t => negativeWords.contains t) <
            tokens.countP (fun t => positiveWords.contains t) then ("positive" : String)
         else if tokens.countP (fun t => positiveWords.contains t) <
            tokens.countP (fun t => negativeWords.contains t) then ("negative" : String)
         else ("neutral" : String))) := by
  constructor
  · intro h
    have hp : tokens.countP (fun t => positiveWords.contains t) = 0 :=
      List.countP_eq_zero.mpr (fun t ht hcon => absurd (List.elem_iff.mp hcon) (h t ht).1)
    have hn : tokens.countP (fun t => negativeWords.contains t) = 0 :=
      List.countP_eq_zero.mpr (fun t ht hcon => absurd (List.elem_iff.mp hcon) (h t ht).2)
    simp only [analyzeSentiment]
    split_ifs with h0 <;> first | rfl | (exfalso; omega)
  · intro h
    simp only [analyzeSentiment]
    rw [if_neg (by omega)]
    constructor
    · split_ifs <;> simp [min_comm]
    · split_ifs with h1 h2 h3 h4 h5 <;> first
        | rfl
        | (exfalso; omega)

/-- Claim C4 witness: both branches of the theorem applied to concrete token
sequences. -/
theorem c4_witness :
    analyzeSentiment [strL ("the")] = { polarity := "neutral", strength := 3/10 } ∧
    (analyzeSentiment [strL ("love"), strL ("cat")]).polarity = "positive" := by
  constructor
  · exact (c4_sentiment_spec [strL ("the")]).1 (by decide)
  · have h := (c4_sentiment_spec [strL ("love"), strL ("cat")]).2 (by with_unfolding_all decide)
    rw [h.2]
    with_unfolding_all decide

/-! ### Claim C5 -/

/-- Claim C5 counterexample: the implemented score sums the matching-token
counts over all keywords of a topic, so the token `codedata` (containing both
`code` and `data`) gives `technology` an implemented score of 2 but a score of
only 1 under the claim's "count of tokens that contain any keyword" reading;
on the tokens `codedata`, `art`, `design` the returned order is
`[technology, creativity]` although under the claim's scoring `technology`
scores strictly less than `creativity`, so the output is not sorted descending
by that score. -/
theorem c5_counterexample :
    extractTopics [strL ("codedata"), strL ("art"), strL ("design")] =
      ["technology", "creativity"] ∧
    claimTopicScore [strL ("codedata"), strL ("art"), strL ("design")] ("technology") <
      claimTopicScore [strL ("codedata"), strL ("art"), strL ("design")] ("creativity") ∧
    topicScore [strL ("codedata"), strL ("art"), strL ("design")] ("technology") =
      topicScore [strL ("codedata"), strL ("art"), strL ("design")] ("creativity") := by
  with_unfolding_all decide

/-- Claim C5 (amended): `extractTopics` returns at most three labels with no
duplicates and no zero-score entries, where each topic's score is the sum over
the topic's keywords of the number of tokens containing that keyword as a
substring (a token counts once per keyword it contains), and the list is
sorted by that score descending with ties broken by the declaration order of
the topic table. -/
theorem c5_extractTopics_spec (tokens : List Str) :
    (extractTopics tokens).length ≤ 3 ∧
    (extractTopics tokens).Nodup ∧
    (∀ t ∈ extractTopics tokens, t ∈ topicNames ∧ 0 < topicScore tokens t) ∧
    (extractTopics tokens).Pairwise (fun t1 t2 =>
      topicScore tokens t2 < topicScore tokens t1 ∨
      (topicScore tokens t1 = topicScore tokens t2 ∧
        topicNames.indexOf t1 < topicNames.indexOf t2)) := by
  have hdef : extractTopics tokens =
      (((sortDescBy (fun e => e.2) (topicNames.map (fun t => (t, topicScore tokens t)))).take
          3).filter (fun e => 0 < e.2)).map (fun e => e.1) := rfl
  have hmem_entries : ∀ e ∈ topicNames.map (fun t => (t, topicScore tokens t)),
      e.1 ∈ topicNames ∧ e.2 = topicScore tokens e.1 := by
    intro e he
    rcases List.mem_map.mp he with ⟨t, ht, rfl⟩
    exact ⟨ht, rfl⟩
  have hchain : ∀ e ∈ ((sortDescBy (fun e => e.2)
        (topicNames.map (fun t => (t, topicScore tokens t)))).take 3).filter
          (fun e => 0 < e.2),
      e ∈ topicNames.map (fun t => (t, topicScore tokens t)) := by
    intro e he
    exact (sortDescBy_perm (fun e => e.2) _).mem_iff.mp
      (List.take_subset 3 _ (List.mem_of_mem_filter he))
  have hR : (topicNames.map (fun t => (t, topicScore tokens t))).Pairwise
      (fun a b => topicNames.indexOf a.1 < topicNames.indexOf b.1) := by
    rw [List.pairwise_map]
    have : topicNames.Pairwise (fun s t => topicNames.indexOf s < topicNames.indexOf t) := by
      decide
    exact this
  have hsorted := pairwise_sortDescBy (fun e : String × ℕ => e.2)
    (fun a b : String × ℕ => topicNames.indexOf a.1 < topicNames.indexOf b.1) _ hR
  have hfiltered : (((sortDescBy (fun e : String × ℕ => e.2)
        (topicNames.map (fun t => (t, topicScore tokens t)))).take 3).filter
          (fun e => 0 < e.2)).Pairwise
      (fun a b : String × ℕ => b.2 < a.2 ∨ (a.2 = b.2 ∧
        topicNames.indexOf a.1 < topicNames.indexOf b.1)) :=
    (hsorted.sublist (List.take_sublist 3 _)).sublist (List.filter_sublist _)
  have hpairFinal : (extractTopics tokens).Pairwise (fun t1 t2 =>
      topicScore tokens t2 < topicScore tokens t1 ∨
      (topicScore tokens t1 = topicScore tokens t2 ∧
        topicNames.indexOf t1 < topicNames.indexOf t2)) := by
    rw [hdef]
    rw [List.pairwise_map]
    refine hfiltered.imp_of_mem ?_
    intro a b ha hb hab
    have ha' := hmem_entries a (hchain a ha)
    have hb' := hmem_entries b (hchain b hb)
    rcases hab with hlt | ⟨heq, hidx⟩
    · exact Or.inl (ha'.2 ▸ hb'.2 ▸ hlt)
    · exact Or.inr ⟨by rw [← ha'.2, ← hb'.2, heq], hidx⟩
  refine ⟨?_, ?_, ?_, hpairFinal⟩
  · rw [hdef, List.length_map]
    refine le_trans (List.length_filter_le _ _) ?_
    rw [List.length_take]
    exact min_le_left 3 _
  · refine hpairFinal.imp ?_
    intro a b hab heq
    subst heq
    rcases hab with h | ⟨_, h⟩ <;> exact absurd h (lt_irrefl _)
  · intro t ht
    rw [hdef] at ht
    rcases List.mem_map.mp ht with ⟨e, he, rfl⟩
    have hent := hmem_entries e (hchain e he)
    have hpos : 0 < e.2 := by
      have := (List.mem_filter.mp he).2
      simpa using this
    exact ⟨hent.1, hent.2 ▸ hpos⟩

/-! ### Claim C7 -/

/-- Claim C7: the persona name is the concatenation, with no separator, of a
prefix and a suffix; the prefix is drawn from the bucket selected by the
priority order energy>0.7, energy<0.3, creativity topic, formality>0.7,
friendly default, and the suffix is drawn from the primary topic's suffix list
when the topic has one, else it is exactly `Mind`. -/
theorem c7_generatePersonaName_spec (a : Analysis) (i j : ℕ) :
    ∃ pfx sfx, generatePersonaName a i j = pfx ++ sfx ∧
      pfx ∈ (if jsGt a.energy (7/10) then pfxHighEnergy
             else if jsLt a.energy (3/10) then pfxLowEnergy
             else if a.topics.contains ("creativity") then pfxCreative
             else if a.formality > 7/10 then pfxProfessional
             else pfxFriendly) ∧
      ((a.topics = [] ∧ sfx = ("Mind" : String)) ∨
       ∃ t ts, a.topics = t :: ts ∧
         ((∃ l, sfxTableFor t = some l ∧ sfx ∈ l) ∨
          (sfxTableFor t = none ∧ sfx = ("Mind" : String)))) := by
  have hpfx : ∃ pfx, (if jsGt a.energy (7/10) then randomChoiceS i pfxHighEnergy
      else if jsLt a.energy (3/10) then randomChoiceS i pfxLowEnergy
      else if a.topics.contains ("creativity") then randomChoiceS i pfxCreative
      else if a.formality > 7/10 then randomChoiceS i pfxProfessional
      else randomChoiceS i pfxFriendly) = pfx ∧
      pfx ∈ (if jsGt a.energy (7/10) then pfxHighEnergy
             else if jsLt a.energy (3/10) then pfxLowEnergy
             else if a.topics.contains ("creativity") then pfxCreative
             else if a.formality > 7/10 then pfxProfessional
             else pfxFriendly) := by
    split_ifs <;> exact ⟨_, rfl, randomChoiceS_mem _ _ (by decide)⟩
  have hsfx2 : ∃ sfx, (match a.topics with
      | [] => ("Mind" : String)
      | t :: _ =>
        match sfxTableFor t with
        | some l => randomChoiceS j l
        | none => ("Mind" : String)) = sfx ∧
      ((a.topics = [] ∧ sfx = ("Mind" : String)) ∨
       ∃ t ts, a.topics = t :: ts ∧
         ((∃ l, sfxTableFor t = some l ∧ sfx ∈ l) ∨
          (sfxTableFor t = none ∧ sfx = ("Mind" : String)))) := by
    cases htop : a.topics with
    | nil => exact ⟨_, rfl, Or.inl ⟨rfl, rfl⟩⟩
    | cons t ts =>
      have hred : (match t :: ts with
          | [] => ("Mind" : String)
          | t :: _ =>
            match sfxTableFor t with
            | some l => randomChoiceS j l
            | none => ("Mind" : String)) =
          (match sfxTableFor t with
          | some l => randomChoiceS j l
          | none => ("Mind" : String)) := rfl
      rw [hred]
      cases hsfx : sfxTableFor t with
      | none => exact ⟨_, rfl, Or.inr ⟨t, ts, rfl, Or.inr ⟨hsfx, rfl⟩⟩⟩
      | some l =>
        exact ⟨_, rfl, Or.inr ⟨t, ts, rfl,
          Or.inl ⟨l, hsfx, randomChoiceS_mem j l (sfxTableFor_ne_nil hsfx)⟩⟩⟩
  obtain ⟨pfx, hpe, hpm⟩ := hpfx
  obtain ⟨sfx, hse, hsm⟩ := hsfx2
  refine ⟨pfx, sfx, ?_, hpm, hsm⟩
  have hun : generatePersonaName a i j =
      (if jsGt a.energy (7/10) then randomChoiceS i pfxHighEnergy
       else if jsLt a.energy (3/10) then randomChoiceS i pfxLowEnergy
       else if a.topics.contains ("creativity") then randomChoiceS i pfxCreative
       else if a.formality > 7/10 then randomChoiceS i pfxProfessional
       else randomChoiceS i pfxFriendly) ++
      (match a.topics with
       | [] => ("Mind" : String)
       | t :: _ =>
         match sfxTableFor t with
         | some l => randomChoiceS j l
         | none => ("Mind" : String)) := rfl
  rw [hun, hpe, hse]

/-! ### Claim C8 -/

/-- Claim C8: for every persona whose communication-style energy exceeds 0.7,
every input reply text and every sequence of random choices, the styled reply
returned by `applyPersonaStyle` contains at least one exclamation mark: the
stylizer appends one when the reply lacks it, and the later signature-phrase
and emoji appends never remove characters. -/
theorem c8_energetic_reply_exclaims (response : Str) (p : Persona) (r1 r2 : Bool)
    (k1 k2 : ℕ) (h : jsGt p.communicationStyle.energy (7/10) = true) :
    '!' ∈ applyPersonaStyle response p r1 r2 k1 k2 := by
  simp only [applyPersonaStyle, h, if_true]
  set s1 := (if p.communicationStyle.formality > 7/10 then makeFormal response
             else if p.communicationStyle.formality < 3/10 then makeInformal response
             else response) with hs1
  have h2 : '!' ∈ (if s1.contains '!' then s1 else s1 ++ ['!']) := by
    by_cases hc : s1.contains '!'
    · rw [if_pos hc]
      exact List.elem_iff.mp hc
    · rw [if_neg hc]
      exact List.mem_append_right s1 (List.mem_singleton.mpr rfl)
  set s2 := (if s1.contains '!' then s1 else s1 ++ ['!']) with hs2
  set s3 := (if r1 ∧ 0 < p.signaturePhrases.length then
      s2 ++ ' ' :: randomChoiceL k1 p.signaturePhrases else s2) with hs3
  have h3 : '!' ∈ s3 := by
    rw [hs3]
    split_ifs with hcond
    · exact List.mem_append_left _ h2
    · exact h2
  split_ifs with hcond
  · exact List.mem_append_left _ h3
  · exact h3

/-- Claim C8 witness: the theorem applied to a concrete energetic persona and
a reply without an exclamation mark. -/
theorem c8_witness :
    jsGt energeticPersona.communicationStyle.energy (7/10) = true ∧
    '!' ∈ applyPersonaStyle (strL ("hello")) energeticPersona true true 0 0 :=
  ⟨by with_unfolding_all decide,
   c8_energetic_reply_exclaims (strL ("hello")) energeticPersona true true 0 0
     (by with_unfolding_all decide)⟩

/-! ### Claim C9 -/

/-- Claim C9: for every persona whose traits contain `Curious`, every reactive
utterance (one containing no `?`) and every sequence of random choices, the
response built before styling is a reaction followed by a follow-up line drawn
from the clarifying-question template set and never from the generic
reflective template set. -/
theorem c9_curious_followups (msg : Str) (p : Persona) (kT kE kW k1 k2 : ℕ)
    (hq : msg.contains '?' = false)
    (hc : p.traits.contains ("Curious") = true) :
    ∃ f, f ∈ clarifyingFollowUps ∧ f ∉ genericFollowUps ∧
      generateResponseCore msg p kT kE kW k1 k2 =
        randomChoiceL k1 (reactionTemplates
          (analyzeSentiment (tokenize (msg.map Char.toLower))).polarity) ++ ' ' :: f := by
  refine ⟨randomChoiceL k2 clarifyingFollowUps,
    randomChoiceL_mem k2 clarifyingFollowUps (by decide), ?_, ?_⟩
  · exact (by decide : ∀ x ∈ clarifyingFollowUps, x ∉ genericFollowUps) _
      (randomChoiceL_mem k2 clarifyingFollowUps (by decide))
  · have hq' : ¬ ('?' ∈ msg) := fun hm => Bool.noConfusion (hq.symm.trans (List.elem_iff.mpr hm))
    have hc' : ("Curious" : String) ∈ p.traits := List.elem_iff.mp hc
    simp [generateResponseCore, hq', generateReactiveResponse, generateFollowUp, hc']

/-- Claim C9 witness: the theorem applied to the concrete curious persona and
a reactive utterance. -/
theorem c9_witness :
    (strL ("hello")).contains '?' = false ∧
    curiousPersona.traits.contains ("Curious") = true ∧
    ∃ f, f ∈ clarifyingFollowUps ∧ f ∉ genericFollowUps ∧
      generateResponseCore (strL ("hello")) curiousPersona 0 0 0 0 0 =
        randomChoiceL 0 (reactionTemplates
          (analyzeSentiment (tokenize ((strL ("hello")).map Char.toLower))).polarity) ++
          ' ' :: f :=
  ⟨by decide, by decide,
   c9_curious_followups (strL ("hello")) curiousPersona 0 0 0 0 0 (by decide) (by decide)⟩

/-! ### Claim C10 -/

/-- Claim C10: for every feature vector, `mapTraits` returns between 2 and 5
traits; the first is a formality trait (`Professional`, `Casual` or
`Balanced`), the second an energy trait (`Energetic`, `Calm` or `Moderate`),
both appended unconditionally before the conditional traits, and the list is
truncated to its first five entries. -/
theorem c10_mapTraits_bounds (a : Analysis) :
    2 ≤ (mapTraits a).length ∧ (mapTraits a).length ≤ 5 ∧
    ∃ t1 t2 rest, mapTraits a = t1 :: t2 :: rest ∧
      t1 ∈ (["Professional", "Casual", "Balanced"] : List String) ∧
      t2 ∈ (["Energetic", "Calm", "Moderate"] : List String) := by
  have hseg1 : ∃ t1, (if a.formality > 7/10 then (["Professional"] : List String)
      else if a.formality < 3/10 then ["Casual"] else ["Balanced"]) = [t1] ∧
      t1 ∈ (["Professional", "Casual", "Balanced"] : List String) := by
    split_ifs <;> exact ⟨_, rfl, by decide⟩
  have hseg2 : ∃ t2, (if jsGt a.energy (7/10) then (["Energetic"] : List String)
      else if jsLt a.energy (3/10) then ["Calm"] else ["Moderate"]) = [t2] ∧
      t2 ∈ (["Energetic", "Calm", "Moderate"] : List String) := by
    split_ifs <;> exact ⟨_, rfl, by decide⟩
  rcases hseg1 with ⟨t1, h1, hm1⟩
  rcases hseg2 with ⟨t2, h2, hm2⟩
  simp only [mapTraits, h1, h2, List.cons_append, List.nil_append]
  refine ⟨?_, ?_, t1, t2, _, rfl, hm1, hm2⟩
  · simp
  · simp only [List.length_take]
    exact min_le_left 5 _

end PersonaWriter
